import Mathlib

/-!
Shallow embedding of the plan-execution engine of the `agno` service:
the executor agent (`app/agents/executor.py`) and the Windmill client
(`app/clients/windmill_client.py`), over the data model of `app/models.py`.

Modelling conventions:
* Python dictionaries are association lists with first-key-wins lookup and
  in-place overwrite on assignment (insertion order preserved, as in Python).
* Python `None` inside an `Any`-typed slot is `Value.null`; `Optional[str]`
  fields are `Option String`.
* Wall-clock time in the polling loop advances by one unit per
  `asyncio.sleep(1)`; network calls themselves take no model time.  The
  unbounded `while True` loop is given explicit fuel and returns `none`
  when the fuel runs out before the loop does.
-/

namespace Agno

/-- Python dict lookup `d.get(k)` on an association list. -/
def pyGet {K V : Type} [DecidableEq K] : List (K × V) → K → Option V
  | [], _ => none
  | (k', v) :: rest, k => if k' = k then some v else pyGet rest k

/-- Python dict assignment `d[k] = v`: overwrite in place, else append. -/
def pySet {K V : Type} [DecidableEq K] : List (K × V) → K → V → List (K × V)
  | [], k, v => [(k, v)]
  | (k', v') :: rest, k, v =>
    if k' = k then (k, v) :: rest else (k', v') :: pySet rest k v

/-- Python membership test `k in d`. -/
def pyContains {K V : Type} [DecidableEq K] (d : List (K × V)) (k : K) : Bool :=
  (pyGet d k).isSome

theorem pyGet_pySet_self {K V : Type} [DecidableEq K] (d : List (K × V)) (k : K) (v : V) :
    pyGet (pySet d k v) k = some v := by
  induction d with
  | nil => simp [pySet, pyGet]
  | cons p rest ih =>
    obtain ⟨k', v'⟩ := p
    by_cases h : k' = k
    · simp [pySet, pyGet, h]
    · simp [pySet, pyGet, h, ih]

theorem pyGet_pySet_ne {K V : Type} [DecidableEq K] (d : List (K × V)) (k k' : K) (v : V)
    (h : k ≠ k') : pyGet (pySet d k v) k' = pyGet d k' := by
  induction d with
  | nil => simp [pySet, pyGet, h]
  | cons p rest ih =>
    obtain ⟨k0, v0⟩ := p
    by_cases h0 : k0 = k
    · subst h0
      simp [pySet, pyGet, h]
    · simp [pySet, pyGet, h0, ih]

/-! ### Injectivity of the decimal rendering of `Nat`

The scheduler injects dependency results under keys `step_<N>_result`
(an f-string over the decimal rendering of the dependency's step number),
so distinctness of the keys reduces to injectivity of `Nat.repr`, which we
obtain from an explicit decimal decoder. -/

/-- Decimal value of a most-significant-first digit-character list. -/
def decDigitsVal (l : List Char) : Nat :=
  l.foldl (fun a c => 10 * a + (c.toNat - 48)) 0

theorem digitChar_toNat_sub (n : Nat) (h : n < 10) : (Nat.digitChar n).toNat - 48 = n := by
  interval_cases n <;> decide

theorem toDigitsCore_append (f : Nat) :
    ∀ n ds, n < f → Nat.toDigitsCore 10 f n ds = Nat.toDigitsCore 10 f n [] ++ ds := by
  induction f with
  | zero => intro n ds h; omega
  | succ f ih =>
    intro n ds _
    by_cases h10 : n / 10 = 0
    · simp [Nat.toDigitsCore, h10]
    · have hge : 10 ≤ n := by
        by_contra hlt
        exact h10 (Nat.div_eq_of_lt (by omega))
      have hfuel : n / 10 < f := by
        have h1 : n / 10 < n := Nat.div_lt_self (by omega) (by omega)
        have h2 : n / 10 + 1 ≤ n := h1
        omega
      simp only [Nat.toDigitsCore, h10, if_false]
      rw [ih (n / 10) ((n % 10).digitChar :: ds) hfuel,
        ih (n / 10) [(n % 10).digitChar] hfuel]
      simp

theorem decDigitsVal_toDigitsCore (f : Nat) :
    ∀ n, n < f → decDigitsVal (Nat.toDigitsCore 10 f n []) = n := by
  induction f with
  | zero => intro n h; omega
  | succ f ih =>
    intro n h
    by_cases h10 : n / 10 = 0
    · have hn : n < 10 := by
        by_contra hge
        have : 0 < n / 10 := Nat.div_pos (by omega) (by omega)
        omega
      simp [Nat.toDigitsCore, h10, decDigitsVal, Nat.mod_eq_of_lt hn,
        digitChar_toNat_sub n hn]
    · have hge : 10 ≤ n := by
        by_contra hlt
        exact h10 (Nat.div_eq_of_lt (by omega))
      have hfuel : n / 10 < f := by
        have h1 : n / 10 < n := Nat.div_lt_self (by omega) (by omega)
        have h2 : n / 10 + 1 ≤ n := h1
        omega
      simp only [Nat.toDigitsCore, h10, if_false]
      rw [toDigitsCore_append f (n / 10) _ hfuel]
      have hmod : n % 10 < 10 := Nat.mod_lt n (by omega)
      simp only [decDigitsVal, List.foldl_append, List.foldl_cons, List.foldl_nil]
      have := ih (n / 10) hfuel
      simp only [decDigitsVal] at this
      rw [this, digitChar_toNat_sub (n % 10) hmod]
      omega

theorem decDigitsVal_repr (n : Nat) : decDigitsVal (Nat.repr n).data = n := by
  show decDigitsVal (Nat.toDigitsCore 10 (n + 1) n []).asString.data = n
  show decDigitsVal (Nat.toDigitsCore 10 (n + 1) n []) = n
  exact decDigitsVal_toDigitsCore (n + 1) n (Nat.lt_succ_self n)

theorem toString_nat_injective {m n : Nat} (h : toString m = toString n) : m = n := by
  have hr : Nat.repr m = Nat.repr n := h
  have hm := decDigitsVal_repr m
  have hn := decDigitsVal_repr n
  rw [hr] at hm
  omega

/-- The key under which the scheduler injects a dependency's result:
the f-string `step_<dep>_result` of `executor.py` line 133. -/
def stepResultKey (dep : Nat) : String :=
  "step_" ++ toString dep ++ "_result"

theorem stepResultKey_injective {a b : Nat} (h : stepResultKey a = stepResultKey b) :
    a = b := by
  have hd : ("step_".data ++ (toString a).data) ++ "_result".data
      = ("step_".data ++ (toString b).data) ++ "_result".data := by
    have := congrArg String.data h
    simpa [stepResultKey, List.append_assoc] using this
  have h1 : "step_".data ++ (toString a).data = "step_".data ++ (toString b).data :=
    List.append_cancel_right hd
  have h2 : (toString a).data = (toString b).data := List.append_cancel_left h1
  exact toString_nat_injective (by
    cases ha : toString a
    cases hb : toString b
    rw [ha, hb] at h2
    simp at h2
    simp [h2])

/-! ### Data model (`app/models.py`) -/

/-- A Python `Any` value as it occurs in params / results (JSON-like).
`Value.null` is Python `None`. -/
inductive Value : Type where
  | null : Value
  | str : String → Value
  | num : Int → Value
  | boolean : Bool → Value
  | obj : List (String × Value) → Value
  | arr : List Value → Value

/-- The `TaskStatus` enum of `models.py`. -/
inductive TaskStatus : Type where
  | pending
  | planning
  | executing
  | completed
  | failed
deriving DecidableEq

/-- The `AgentType` enum of `models.py`. -/
inductive AgentType : Type where
  | coordinator
  | planner
  | executor
  | researcher
deriving DecidableEq

/-- The `ExecutionStep` model of `models.py`. -/
structure ExecutionStep : Type where
  step_number : Nat
  description : String
  agent : AgentType
  script_path : Option String := none
  input_params : List (String × Value) := []
  depends_on : List Nat := []
  status : TaskStatus := .pending
  result : Value := .null
  error : Option String := none

/-- The `ExecutionPlan` model of `models.py` (`created_at` as abstract ticks). -/
structure ExecutionPlan : Type where
  task_id : String
  user_id : String
  original_request : String
  skill : Option String := none
  steps : List ExecutionStep := []
  created_at : Nat := 0
  status : TaskStatus := .pending

/-- The `TaskResponse` model of `models.py`. -/
structure TaskResponse : Type where
  task_id : String
  status : TaskStatus
  result : Value := .null
  error : Option String := none
  execution_time_ms : Nat := 0
  steps_completed : Nat := 0
  total_steps : Nat := 0

/-- The `WindmillJobResult` model of `models.py`. -/
structure WindmillJobResult : Type where
  job_id : String
  status : String
  result : Value := .null
  error : Option String := none
  duration_ms : Nat := 0

/-- Python truthiness of an `Optional[str]`: `None` and `""` are falsy. -/
def pyTruthyOptStr : Option String → Bool
  | none => false
  | some s => !(s = "")

/-! ### Remote-job client (`app/clients/windmill_client.py`)

`run_script` submits the job with one POST, then (when `wait` holds) polls
`GET .../get_result/<job_id>` in a loop.  The network is abstracted as:
* the outcome of the single submission POST (`SubmitResponse`), and
* an oracle giving the response of the `i`-th polling GET (`PollResponse`).

In the time model each `asyncio.sleep(1)` advances the clock by one unit
and nothing else takes time, so after `i` polls the elapsed wall-clock time
is the number of sleeps performed so far. -/

/-- Outcome of one polling `GET`: an HTTP response with status code and
JSON body, or an `httpx.HTTPError`. -/
inductive PollResponse : Type where
  | http : Nat → Value → PollResponse
  | netError : String → PollResponse

/-- Outcome of the submission `POST` (after `raise_for_status`):
the job id, or the message of the raised `httpx.HTTPError`. -/
inductive SubmitResponse : Type where
  | ok : String → SubmitResponse
  | err : String → SubmitResponse

/-- Function `_wait_for_job` of `windmill_client.py` (lines 67 to 112): the body of
`while True`, fuel-indexed.  `elapsed` counts completed 1-unit sleeps, which
is the elapsed wall-clock time at the top of the iteration. -/
def wait_for_job (poll : Nat → PollResponse) (job_id : String) (timeout : Nat) :
    Nat → Nat → Option WindmillJobResult
  | _, 0 => none
  | elapsed, fuel + 1 =>
    if timeout < elapsed then
      some { job_id := job_id, status := "timeout",
             error := some ("Job timed out after " ++ toString timeout ++ "s") }
    else
      match poll elapsed with
      | .http status_code body =>
        if status_code = 200 then
          some { job_id := job_id, status := "completed", result := body,
                 duration_ms := elapsed * 1000 }
        else if status_code = 404 then
          wait_for_job poll job_id timeout (elapsed + 1) fuel
        else
          some { job_id := job_id, status := "failed",
                 error := some ("Unexpected status: " ++ toString status_code) }
      | .netError _ => wait_for_job poll job_id timeout (elapsed + 1) fuel

/-- Function `run_script` of `windmill_client.py` (lines 25 to 65). -/
def run_script (submit : SubmitResponse) (poll : Nat → PollResponse)
    (wait : Bool) (timeout : Nat) (fuel : Nat) : Option WindmillJobResult :=
  match submit with
  | .err e => some { job_id := "", status := "failed", error := some e }
  | .ok job_id =>
    if !wait then
      some { job_id := job_id, status := "running" }
    else
      wait_for_job poll job_id timeout 0 fuel

/-! ### Step scheduler (`app/agents/executor.py`)

`_execute_plan` walks `plan.steps` in order, checking dependencies,
dispatching each step and aggregating into a `TaskResponse`.  The call to
`windmill_client.run_script(script_path, args, wait=True)` is abstracted
as a dispatch environment mapping the script path and prepared arguments
to the `WindmillJobResult` it returns. -/

/-- The result of `windmill_client.run_script(script_path, args, wait=True)`
as observed by the executor for given script path and arguments. -/
def DispatchEnv : Type :=
  String → List (String × Value) → WindmillJobResult

/-- Function `_check_dependencies` of `executor.py` (lines 112 to 121). -/
def check_dependencies (step : ExecutionStep)
    (completed_results : List (Nat × Value)) : Bool :=
  step.depends_on.all (fun dep => pyContains completed_results dep)

/-- One iteration of the injection loop of `_execute_step` (lines 131 to 133):
`if dep in previous_results: input_params[stepResultKey dep] = previous_results[dep]`. -/
def injectOne (previous_results : List (Nat × Value))
    (params : List (String × Value)) (dep : Nat) : List (String × Value) :=
  match pyGet previous_results dep with
  | some v => pySet params (stepResultKey dep) v
  | none => params

/-- The input-preparation prefix of `_execute_step` (lines 129 to 133):
copy `step.input_params`; for each dependency present in `previous_results`,
assign `input_params["step_" + str(dep) + "_result"] = previous_results[dep]`. -/
def injectParams (step : ExecutionStep) (previous_results : List (Nat × Value)) :
    List (String × Value) :=
  step.depends_on.foldl (injectOne previous_results) step.input_params

/-- Function `_execute_step` of `executor.py` (lines 123 to 149).  `.error` carries
the `str(e)` of the exception raised when the remote status is not
`"completed"` (`result.error or "Script execution failed"`, with Python
truthiness on the optional string). -/
def execute_step (env : DispatchEnv) (step : ExecutionStep)
    (previous_results : List (Nat × Value)) : Except String Value :=
  let input_params := injectParams step previous_results
  match step.script_path with
  | some sp =>
    let result := env sp input_params
    if result.status = "completed" then
      .ok result.result
    else
      .error (match result.error with
        | some e => if e = "" then "Script execution failed" else e
        | none => "Script execution failed")
  | none => .ok (.obj input_params)

/-- The local loop state of `_execute_plan` (lines 64 to 67). -/
structure LoopState : Type where
  completed_steps : Nat := 0
  step_results : List (Nat × Value) := []
  final_result : Value := .null
  error : Option String := none

/-- The `for step in plan.steps` loop of `_execute_plan` (lines 71 to 98):
returns the step list with its final per-step statuses together with the
final loop state.  A `break` leaves the remaining steps untouched. -/
def execute_steps (env : DispatchEnv) :
    List ExecutionStep → LoopState → List ExecutionStep × LoopState
  | [], st => ([], st)
  | step :: rest, st =>
    if check_dependencies step st.step_results then
      match execute_step env step st.step_results with
      | .ok result =>
        let out := execute_steps env rest
          { completed_steps := st.completed_steps + 1,
            step_results := pySet st.step_results step.step_number result,
            final_result := result,
            error := st.error }
        ({ step with status := .completed, result := result } :: out.1, out.2)
      | .error e =>
        ({ step with status := .failed, error := some e } :: rest,
         { st with
            error := some ("Step " ++ toString step.step_number ++ " failed: " ++ e) })
    else
      (step :: rest,
       { st with
          error := some ("Step " ++ toString step.step_number ++ " dependencies not met") })

/-- Function `_execute_plan` of `executor.py` (lines 59 to 110): returns the plan as
mutated by the call together with the `TaskResponse`.  `execution_time_ms`
is the measured wall-clock duration of the whole call, supplied as a
parameter of the time model. -/
def execute_plan (env : DispatchEnv) (execution_time_ms : Nat)
    (plan : ExecutionPlan) : ExecutionPlan × TaskResponse :=
  let plan' := { plan with status := TaskStatus.executing }
  let out := execute_steps env plan'.steps {}
  ({ plan' with steps := out.1 },
   { task_id := plan.task_id,
     status := if pyTruthyOptStr out.2.error then .failed else .completed,
     result := out.2.final_result,
     error := out.2.error,
     execution_time_ms := execution_time_ms,
     steps_completed := out.2.completed_steps,
     total_steps := plan.steps.length })

/-! ### Structural lemmas about the scheduler loop -/

theorem string_append_ne_empty_of_ne (a s : String) (ha : a ≠ "") :
    a ++ s ≠ "" := by
  intro h
  apply ha
  have hd := congrArg String.data h
  simp only [String.data_append] at hd
  rcases List.append_eq_nil.mp (by simpa using hd) with ⟨h1, _⟩
  apply String.ext
  simpa using h1

theorem execute_steps_length (env : DispatchEnv) (steps : List ExecutionStep)
    (st : LoopState) : (execute_steps env steps st).1.length = steps.length := by
  induction steps generalizing st with
  | nil => rfl
  | cons step rest ih =>
    cases hc : check_dependencies step st.step_results with
    | false => simp [execute_steps, hc]
    | true =>
      cases hex : execute_step env step st.step_results with
      | ok result => simp [execute_steps, hc, hex, ih]
      | error e => simp [execute_steps, hc, hex]

theorem execute_steps_spec (env : DispatchEnv) (steps : List ExecutionStep)
    (st : LoopState) (h : st.error = none) :
    ((execute_steps env steps st).2.error = none ∧
      (execute_steps env steps st).2.completed_steps
        = st.completed_steps + steps.length) ∨
    (∃ e, (execute_steps env steps st).2.error = some e ∧ e ≠ "" ∧ steps ≠ [] ∧
      (execute_steps env steps st).2.completed_steps
        < st.completed_steps + steps.length) := by
  induction steps generalizing st with
  | nil => left; simp [execute_steps, h]
  | cons step rest ih =>
    cases hc : check_dependencies step st.step_results with
    | false =>
      right
      refine ⟨"Step " ++ toString step.step_number ++ " dependencies not met",
        ?_, ?_, ?_, ?_⟩
      · simp [execute_steps, hc]
      · exact string_append_ne_empty_of_ne _ _
          (string_append_ne_empty_of_ne _ _ (by decide))
      · simp
      · simp [execute_steps, hc]
    | true =>
      cases hex : execute_step env step st.step_results with
      | ok result =>
        have ih' := ih
          { completed_steps := st.completed_steps + 1,
            step_results := pySet st.step_results step.step_number result,
            final_result := result,
            error := st.error } h
        rcases ih' with ⟨h1, h2⟩ | ⟨e, h1, h2, _, h3⟩
        · left
          constructor
          · simpa [execute_steps, hc, hex] using h1
          · simp only [execute_steps, hc, hex]
            simp only at h2
            simp [h2]
            omega
        · right
          refine ⟨e, ?_, h2, ?_, ?_⟩
          · simpa [execute_steps, hc, hex] using h1
          · simp
          · simp only [execute_steps, hc, hex]
            simp only at h3
            simp
            omega
      | error e =>
        right
        refine ⟨"Step " ++ toString step.step_number ++ " failed: " ++ e,
          ?_, ?_, ?_, ?_⟩
        · simp [execute_steps, hc, hex]
        · exact string_append_ne_empty_of_ne _ _
            (string_append_ne_empty_of_ne _ _
              (string_append_ne_empty_of_ne _ _ (by decide)))
        · simp
        · simp [execute_steps, hc, hex]

theorem execute_steps_append (env : DispatchEnv) (pre rest : List ExecutionStep)
    (st : LoopState) (h : st.error = none) :
    execute_steps env (pre ++ rest) st =
      if (execute_steps env pre st).2.error = none then
        ((execute_steps env pre st).1
            ++ (execute_steps env rest (execute_steps env pre st).2).1,
         (execute_steps env rest (execute_steps env pre st).2).2)
      else
        ((execute_steps env pre st).1 ++ rest, (execute_steps env pre st).2) := by
  induction pre generalizing st with
  | nil => simp [execute_steps, h]
  | cons step pre' ih =>
    cases hc : check_dependencies step st.step_results with
    | false => simp [execute_steps, hc]
    | true =>
      cases hex : execute_step env step st.step_results with
      | ok result =>
        simp only [List.cons_append, execute_steps, hc, hex, if_true, List.append_eq]
        rw [ih { completed_steps := st.completed_steps + 1,
                 step_results := pySet st.step_results step.step_number result,
                 final_result := result,
                 error := st.error } h]
        split <;> simp
      | error e => simp [execute_steps, hc, hex]

theorem execute_steps_last (env : DispatchEnv) (steps : List ExecutionStep) :
    ∀ st : LoopState, st.error = none →
    (execute_steps env steps st).2.error = none →
    steps ≠ [] →
    ∃ sl, (execute_steps env steps st).1.getLast? = some sl ∧
      sl.status = TaskStatus.completed ∧
      sl.result = (execute_steps env steps st).2.final_result := by
  induction steps with
  | nil => intro st _ _ hne; exact absurd rfl hne
  | cons step rest ih =>
    intro st h hok _
    cases hc : check_dependencies step st.step_results with
    | false => exact absurd hok (by simp [execute_steps, hc])
    | true =>
      cases hex : execute_step env step st.step_results with
      | error e => exact absurd hok (by simp [execute_steps, hc, hex])
      | ok result =>
        by_cases hrest : rest = []
        · subst hrest
          refine ⟨{ step with status := .completed, result := result }, ?_, rfl, ?_⟩
          · simp [execute_steps, hc, hex]
          · simp [execute_steps, hc, hex]
        · have hok' : (execute_steps env rest
              { completed_steps := st.completed_steps + 1,
                step_results := pySet st.step_results step.step_number result,
                final_result := result,
                error := st.error }).2.error = none := by
            simpa [execute_steps, hc, hex] using hok
          obtain ⟨sl, h1, h2, h3⟩ := ih
            { completed_steps := st.completed_steps + 1,
              step_results := pySet st.step_results step.step_number result,
              final_result := result,
              error := st.error } h hok' hrest
          have hne1 : (execute_steps env rest
              { completed_steps := st.completed_steps + 1,
                step_results := pySet st.step_results step.step_number result,
                final_result := result,
                error := st.error }).1 ≠ [] := by
            intro hnil
            apply hrest
            have hl := execute_steps_length env rest
              { completed_steps := st.completed_steps + 1,
                step_results := pySet st.step_results step.step_number result,
                final_result := result,
                error := st.error }
            rw [hnil] at hl
            exact List.eq_nil_of_length_eq_zero hl.symm
          obtain ⟨x, xs, hxe⟩ := List.exists_cons_of_ne_nil hne1
          refine ⟨sl, ?_, h2, ?_⟩
          · simp only [execute_steps, hc, hex]
            rw [hxe] at h1 ⊢
            simpa [List.getLast?_cons_cons] using h1
          · simpa [execute_steps, hc, hex] using h3

/-! ### Lemmas about the dependency-result injection -/

theorem injectFold_get_of_no_key (prev : List (Nat × Value)) (deps : List Nat) :
    ∀ (params : List (String × Value)) (k : String),
    (∀ dep ∈ deps, pyContains prev dep = true → stepResultKey dep ≠ k) →
    pyGet (deps.foldl (injectOne prev) params) k = pyGet params k := by
  induction deps with
  | nil => intro params k _; rfl
  | cons d ds ih =>
    intro params k hk
    rw [List.foldl_cons]
    rw [ih _ k (fun dep hdep => hk dep (List.mem_cons_of_mem d hdep))]
    unfold injectOne
    cases hd : pyGet prev d with
    | none => rfl
    | some v =>
      exact pyGet_pySet_ne _ _ _ _ (hk d (List.mem_cons_self d ds) (by simp [pyContains, hd]))

theorem injectFold_get_dep (prev : List (Nat × Value)) (deps : List Nat) :
    ∀ (params : List (String × Value)) (dep : Nat) (v : Value),
    dep ∈ deps → pyGet prev dep = some v →
    pyGet (deps.foldl (injectOne prev) params) (stepResultKey dep) = some v := by
  induction deps with
  | nil => intro params dep v hmem _; simp at hmem
  | cons d ds ih =>
    intro params dep v hmem hv
    rw [List.foldl_cons]
    by_cases hds : dep ∈ ds
    · exact ih _ dep v hds hv
    · have hdd : dep = d := by
        rcases List.mem_cons.mp hmem with h | h
        · exact h
        · exact absurd h hds
      subst hdd
      rw [injectFold_get_of_no_key prev ds _ (stepResultKey dep)
        (fun d' hd' _ hkey => hds (stepResultKey_injective hkey ▸ hd'))]
      unfold injectOne
      rw [hv]
      exact pyGet_pySet_self _ _ _

/-! ### Claims about the remote-job client -/

theorem wait_for_job_all404_timeout (poll : Nat → PollResponse) (job_id : String)
    (timeout : Nat) (hpoll : ∀ i, i ≤ timeout → ∃ b, poll i = PollResponse.http 404 b) :
    ∀ fuel elapsed, 1 ≤ fuel → timeout + 2 ≤ fuel + elapsed →
    wait_for_job poll job_id timeout elapsed fuel
      = some { job_id := job_id, status := "timeout",
               error := some ("Job timed out after " ++ toString timeout ++ "s") } := by
  intro fuel
  induction fuel with
  | zero => intro elapsed h1 _; omega
  | succ fuel ih =>
    intro elapsed _ h2
    by_cases ht : timeout < elapsed
    · simp [wait_for_job, ht]
    · obtain ⟨b, hb⟩ := hpoll elapsed (by omega)
      have hrec : wait_for_job poll job_id timeout elapsed (fuel + 1)
          = wait_for_job poll job_id timeout (elapsed + 1) fuel := by
        simp [wait_for_job, ht, hb]
      rw [hrec]
      exact ih (elapsed + 1) (by omega) (by omega)

/-- C6: if the backend answers every poll up to the timeout budget with 404
(never a terminal response), the client's waiting call returns status
`timeout` with an error string containing `timed out after <timeout>`, and
the loop exits (the returned value is the timeout result, not a further
poll's).  Fuel `timeout + 2` bounds the number of loop iterations actually
used. -/
theorem claim_C6_timeout_budget (poll : Nat → PollResponse) (job_id : String)
    (timeout fuel : Nat)
    (hpoll : ∀ i, i ≤ timeout → ∃ b, poll i = PollResponse.http 404 b)
    (hfuel : timeout + 2 ≤ fuel) :
    run_script (SubmitResponse.ok job_id) poll true timeout fuel
      = some { job_id := job_id, status := "timeout",
               error := some ("Job timed out after " ++ toString timeout ++ "s") } ∧
    (∃ pre post, "Job timed out after " ++ toString timeout ++ "s"
      = pre ++ ("timed out after " ++ toString timeout) ++ post) := by
  constructor
  · show wait_for_job poll job_id timeout 0 fuel = _
    exact wait_for_job_all404_timeout poll job_id timeout hpoll fuel 0 (by omega) (by omega)
  · refine ⟨"Job ", "s", ?_⟩
    apply String.ext
    simp only [String.data_append, List.append_assoc]
    rw [← List.append_assoc "Job ".data]
    congr 1

/-- Witness for C6 at a concrete backend that always answers 404. -/
theorem claim_C6_timeout_budget_witness :
    run_script (SubmitResponse.ok "j") (fun _ => PollResponse.http 404 Value.null)
        true 2 4
      = some { job_id := "j", status := "timeout",
               error := some ("Job timed out after " ++ toString 2 ++ "s") } ∧
    (∃ pre post, "Job timed out after " ++ toString 2 ++ "s"
      = pre ++ ("timed out after " ++ toString 2) ++ post) :=
  claim_C6_timeout_budget (fun _ => PollResponse.http 404 Value.null) "j" 2 4
    (fun _ _ => ⟨Value.null, rfl⟩) (by omega)

/-- C7: in the polling loop of `submit` with `wait = true`: a 404 response
means still running and the loop retries after one 1-unit sleep; a 200
response is terminal `completed` with the payload as result; any other
status response is terminal `failed`; a transient network error is retried
after the same sleep.  Under a backend answering 404 exactly twice then
200, the call returns `completed` with `duration_ms = 2000`, at least the
elapsed sleep time of two 1-second sleeps. -/
theorem claim_C7_polling_loop (poll : Nat → PollResponse) (job_id : String)
    (timeout fuel : Nat) (b0 b1 v : Value)
    (h0 : poll 0 = PollResponse.http 404 b0)
    (h1 : poll 1 = PollResponse.http 404 b1)
    (h2 : poll 2 = PollResponse.http 200 v)
    (ht : 2 ≤ timeout) (hf : 3 ≤ fuel) :
    (run_script (SubmitResponse.ok job_id) poll true timeout fuel
        = some { job_id := job_id, status := "completed", result := v,
                 duration_ms := 2 * 1000 } ∧
      2 * 1000 ≤ 2 * 1000) ∧
    (∀ (q : Nat → PollResponse) (el f : Nat) (b : Value), ¬ timeout < el →
      q el = PollResponse.http 404 b →
      wait_for_job q job_id timeout el (f + 1)
        = wait_for_job q job_id timeout (el + 1) f) ∧
    (∀ (q : Nat → PollResponse) (el f : Nat) (v' : Value), ¬ timeout < el →
      q el = PollResponse.http 200 v' →
      wait_for_job q job_id timeout el (f + 1)
        = some { job_id := job_id, status := "completed", result := v',
                 duration_ms := el * 1000 }) ∧
    (∀ (q : Nat → PollResponse) (el f c : Nat) (b : Value), ¬ timeout < el →
      q el = PollResponse.http c b → c ≠ 200 → c ≠ 404 →
      wait_for_job q job_id timeout el (f + 1)
        = some { job_id := job_id, status := "failed",
                 error := some ("Unexpected status: " ++ toString c) }) ∧
    (∀ (q : Nat → PollResponse) (el f : Nat) (m : String), ¬ timeout < el →
      q el = PollResponse.netError m →
      wait_for_job q job_id timeout el (f + 1)
        = wait_for_job q job_id timeout (el + 1) f) := by
  have e404 : ∀ (q : Nat → PollResponse) (el f : Nat) (b : Value), ¬ timeout < el →
      q el = PollResponse.http 404 b →
      wait_for_job q job_id timeout el (f + 1)
        = wait_for_job q job_id timeout (el + 1) f := by
    intro q el f b hle hq
    simp [wait_for_job, hle, hq]
  have e200 : ∀ (q : Nat → PollResponse) (el f : Nat) (v' : Value), ¬ timeout < el →
      q el = PollResponse.http 200 v' →
      wait_for_job q job_id timeout el (f + 1)
        = some { job_id := job_id, status := "completed", result := v',
                 duration_ms := el * 1000 } := by
    intro q el f v' hle hq
    simp [wait_for_job, hle, hq]
  refine ⟨⟨?_, le_refl _⟩, e404, e200, ?_, ?_⟩
  · obtain ⟨k, rfl⟩ : ∃ k, fuel = k + 3 := ⟨fuel - 3, by omega⟩
    show wait_for_job poll job_id timeout 0 (k + 2 + 1) = _
    rw [e404 poll 0 (k + 2) b0 (by omega) h0]
    rw [show k + 2 = k + 1 + 1 from rfl, e404 poll 1 (k + 1) b1 (by omega) h1]
    rw [show k + 1 = k + 0 + 1 from rfl, e200 poll 2 (k + 0) v (by omega) h2]
  · intro q el f c b hle hq hc200 hc404
    simp [wait_for_job, hle, hq, hc200, hc404]
  · intro q el f m hle hq
    simp [wait_for_job, hle, hq]

/-- Witness for C7 at a concrete backend answering 404, 404, then 200. -/
theorem claim_C7_polling_loop_witness :
    run_script (SubmitResponse.ok "j")
        (fun i => if i = 2 then PollResponse.http 200 (Value.num 7)
                  else PollResponse.http 404 Value.null) true 5 9
      = some { job_id := "j", status := "completed", result := Value.num 7,
               duration_ms := 2 * 1000 } ∧
    2 * 1000 ≤ 2 * 1000 :=
  (claim_C7_polling_loop
    (fun i => if i = 2 then PollResponse.http 200 (Value.num 7)
              else PollResponse.http 404 Value.null)
    "j" 5 9 Value.null Value.null (Value.num 7) rfl rfl rfl
    (by omega) (by omega)).1

/-- C8: a submission failure (network error or non-2xx, the
`httpx.HTTPError` caught in `run_script`) yields a failed
`WindmillJobResult` carrying the cause immediately, independent of the
polling backend and fuel (the polling loop is never entered) and with no
retry of the submission. -/
theorem claim_C8_submission_failure (e : String) (poll : Nat → PollResponse)
    (wait : Bool) (timeout fuel : Nat) :
    run_script (SubmitResponse.err e) poll wait timeout fuel
      = some { job_id := "", status := "failed", error := some e } := rfl

/-! ### Claims about the step scheduler -/

/-- C9: a passthrough step (`script_path` absent) completes (`Except.ok`)
with result equal to its `input_params` extended by the injected
`step_<id>_result` keys, and without any remote call: the outcome is
independent of the dispatch environment. -/
theorem claim_C9_passthrough (env env2 : DispatchEnv) (step : ExecutionStep)
    (prev : List (Nat × Value)) (h : step.script_path = none) :
    execute_step env step prev = Except.ok (Value.obj (injectParams step prev)) ∧
    execute_step env step prev = execute_step env2 step prev := by
  constructor <;> simp [execute_step, h]

/-- Witness for C9 at a concrete passthrough step with one satisfied
dependency. -/
theorem claim_C9_passthrough_witness :
    execute_step (fun _ _ => { job_id := "", status := "failed" })
        { step_number := 2, description := "d", agent := AgentType.executor,
          input_params := [("x", Value.num 1)], depends_on := [1] }
        [(1, Value.str "r")]
      = Except.ok (Value.obj (injectParams
          { step_number := 2, description := "d", agent := AgentType.executor,
            input_params := [("x", Value.num 1)], depends_on := [1] }
          [(1, Value.str "r")])) :=
  (claim_C9_passthrough (fun _ _ => { job_id := "", status := "failed" })
    (fun _ _ => { job_id := "", status := "running" })
    { step_number := 2, description := "d", agent := AgentType.executor,
      input_params := [("x", Value.num 1)], depends_on := [1] }
    [(1, Value.str "r")] rfl).1

/-- C10: executing a plan with no steps returns a completed `TaskResponse`
with zero counts, no result and no error, and the only mutation to the
plan is `status := executing`. -/
theorem claim_C10_empty_plan (env : DispatchEnv) (t : Nat) (plan : ExecutionPlan)
    (h : plan.steps = []) :
    execute_plan env t plan
      = ({ plan with status := TaskStatus.executing },
         { task_id := plan.task_id, status := TaskStatus.completed,
           result := Value.null, error := none, execution_time_ms := t,
           steps_completed := 0, total_steps := 0 }) := by
  cases plan
  simp only at h
  subst h
  rfl

/-- Witness for C10 at a concrete empty plan. -/
theorem claim_C10_empty_plan_witness :
    execute_plan (fun _ _ => { job_id := "", status := "failed" }) 42
        { task_id := "t", user_id := "u", original_request := "r" }
      = ({ task_id := "t", user_id := "u", original_request := "r",
           status := TaskStatus.executing },
         { task_id := "t", status := TaskStatus.completed,
           result := Value.null, error := none, execution_time_ms := 42,
           steps_completed := 0, total_steps := 0 }) :=
  claim_C10_empty_plan (fun _ _ => { job_id := "", status := "failed" }) 42
    { task_id := "t", user_id := "u", original_request := "r" } rfl

/-- C4: every `TaskResponse` produced by plan execution satisfies
`steps_completed ≤ total_steps`, `total_steps = plan.steps.length`, and
`status = completed` iff `error = none` and
`steps_completed = total_steps`. -/
theorem claim_C4_result_invariants (env : DispatchEnv) (t : Nat)
    (plan : ExecutionPlan) :
    (execute_plan env t plan).2.steps_completed
        ≤ (execute_plan env t plan).2.total_steps ∧
    (execute_plan env t plan).2.total_steps = plan.steps.length ∧
    ((execute_plan env t plan).2.status = TaskStatus.completed ↔
      (execute_plan env t plan).2.error = none ∧
      (execute_plan env t plan).2.steps_completed
        = (execute_plan env t plan).2.total_steps) := by
  have hspec := execute_steps_spec env plan.steps {} rfl
  rcases hspec with ⟨h1, h2⟩ | ⟨e, h1, h2, _, h3⟩
  · refine ⟨?_, rfl, ?_⟩
    · simp [execute_plan, h2]
    · simp [execute_plan, h1, h2, pyTruthyOptStr]
  · refine ⟨?_, rfl, ?_⟩
    · have h3' : (execute_steps env plan.steps {}).2.completed_steps
          < 0 + plan.steps.length := h3
      simp only [execute_plan]
      omega
    · constructor
      · intro hc
        exfalso
        simp only [execute_plan] at hc
        rw [h1] at hc
        simp [pyTruthyOptStr, h2] at hc
      · intro ⟨he, _⟩
        exfalso
        simp only [execute_plan] at he
        rw [h1] at he
        simp at he

/-- C2 counterexample: on a plan with no steps (so every step vacuously
succeeded) the claim requires `plan.status = completed` on return, but the
code never writes a terminal status to the plan: the returned plan still
has `status = executing` even though the returned `TaskResponse` is
`completed`. -/
theorem claim_C2_counterexample :
    (execute_plan (fun _ _ => { job_id := "", status := "failed" }) 0
        { task_id := "t", user_id := "u", original_request := "r" }).1.status
      = TaskStatus.executing ∧
    TaskStatus.executing ≠ TaskStatus.completed ∧
    TaskStatus.executing ≠ TaskStatus.failed ∧
    (execute_plan (fun _ _ => { job_id := "", status := "failed" }) 0
        { task_id := "t", user_id := "u", original_request := "r" }).2.status
      = TaskStatus.completed :=
  ⟨rfl, by decide, by decide, rfl⟩

/-- C2 amended: `execute` sets `plan.status = executing` on entry and the
plan keeps that (non-terminal) status when the call returns; the terminal
state appears only on the returned `TaskResponse`, whose status is
`completed` if every step succeeded (all steps of the plan were completed)
and `failed` otherwise. -/
theorem claim_C2_amended_plan_status (env : DispatchEnv) (t : Nat)
    (plan : ExecutionPlan) :
    (execute_plan env t plan).1.status = TaskStatus.executing ∧
    ((execute_plan env t plan).2.status = TaskStatus.completed ∨
      (execute_plan env t plan).2.status = TaskStatus.failed) ∧
    ((execute_plan env t plan).2.status = TaskStatus.completed ↔
      (execute_plan env t plan).2.steps_completed = plan.steps.length) := by
  have hspec := execute_steps_spec env plan.steps {} rfl
  refine ⟨rfl, ?_, ?_⟩
  · simp only [execute_plan]
    cases pyTruthyOptStr (execute_steps env plan.steps {}).2.error
    · left; rfl
    · right; rfl
  · rcases hspec with ⟨h1, h2⟩ | ⟨e, h1, h2, _, h3⟩
    · simp [execute_plan, h1, h2, pyTruthyOptStr]
    · constructor
      · intro hc
        exfalso
        simp only [execute_plan] at hc
        rw [h1] at hc
        simp [pyTruthyOptStr, h2] at hc
      · intro hc
        exfalso
        have h3' : (execute_steps env plan.steps {}).2.completed_steps
            < 0 + plan.steps.length := h3
        simp only [execute_plan] at hc
        omega

/-- C3: if the walk reaches step `k` (all earlier steps succeeded) and its
dispatch fails, the returned `TaskResult` is `failed` with
`steps_completed = k - 1` (the number of earlier steps), error
`"Step <N> failed: <cause>"`, the walk halts with every later step left
untouched (so a pending step stays pending), and `result` is the last
successfully completed step's result (`none`, i.e. null, when `k` is the
first step). -/
theorem claim_C3_step_failure_fail_fast (env : DispatchEnv) (t : Nat)
    (plan : ExecutionPlan) (pre post : List ExecutionStep)
    (stepk : ExecutionStep) (e : String)
    (hsteps : plan.steps = pre ++ stepk :: post)
    (hpre : (execute_steps env pre {}).2.error = none)
    (hdep : check_dependencies stepk (execute_steps env pre {}).2.step_results = true)
    (hfail : execute_step env stepk (execute_steps env pre {}).2.step_results
      = Except.error e) :
    (execute_plan env t plan).2.status = TaskStatus.failed ∧
    (execute_plan env t plan).2.steps_completed = pre.length ∧
    (execute_plan env t plan).2.error
      = some ("Step " ++ toString stepk.step_number ++ " failed: " ++ e) ∧
    (execute_plan env t plan).1.steps
      = (execute_steps env pre {}).1
          ++ ({ stepk with status := TaskStatus.failed, error := some e } :: post) ∧
    (execute_plan env t plan).2.result = (execute_steps env pre {}).2.final_result ∧
    (pre = [] → (execute_plan env t plan).2.result = Value.null) ∧
    (pre ≠ [] → ∃ sl, (execute_steps env pre {}).1.getLast? = some sl ∧
      sl.status = TaskStatus.completed ∧
      (execute_plan env t plan).2.result = sl.result) := by
  have hall : execute_steps env plan.steps {}
      = ((execute_steps env pre {}).1
            ++ ({ stepk with status := TaskStatus.failed, error := some e } :: post),
         { (execute_steps env pre {}).2 with
            error := some ("Step " ++ toString stepk.step_number ++ " failed: " ++ e) }) := by
    rw [hsteps, execute_steps_append env pre (stepk :: post) {} rfl, if_pos hpre]
    simp [execute_steps, hdep, hfail]
  have hcompleted : (execute_steps env pre {}).2.completed_steps = pre.length := by
    rcases execute_steps_spec env pre {} rfl with ⟨_, hc⟩ | ⟨e', he', _, _, _⟩
    · have hc' : (execute_steps env pre {}).2.completed_steps = 0 + pre.length := hc
      omega
    · rw [hpre] at he'
      exact absurd he' (by simp)
  have hmsg : ("Step " ++ toString stepk.step_number ++ " failed: " ++ e) ≠ "" :=
    string_append_ne_empty_of_ne _ _
      (string_append_ne_empty_of_ne _ _
        (string_append_ne_empty_of_ne _ _ (by decide)))
  refine ⟨?_, ?_, ?_, ?_, ?_, ?_, ?_⟩
  · simp [execute_plan, hall, pyTruthyOptStr, hmsg]
  · simpa [execute_plan, hall] using hcompleted
  · simp [execute_plan, hall]
  · simp [execute_plan, hall]
  · simp [execute_plan, hall]
  · intro h0
    subst h0
    simp [execute_plan, hall, execute_steps]
  · intro hne
    obtain ⟨sl, hsl1, hsl2, hsl3⟩ := execute_steps_last env pre {} rfl hpre hne
    exact ⟨sl, hsl1, hsl2, by simp [execute_plan, hall, hsl3]⟩

/-- Witness for C3: a one-step plan whose only step's remote dispatch
reports failure. -/
theorem claim_C3_step_failure_fail_fast_witness :
    (execute_plan (fun _ _ => { job_id := "", status := "failed", error := some "boom" }) 0
        { task_id := "t", user_id := "u", original_request := "r",
          steps := [{ step_number := 1, description := "d", agent := AgentType.executor,
                      script_path := some "s" }] }).2.status = TaskStatus.failed ∧
    (execute_plan (fun _ _ => { job_id := "", status := "failed", error := some "boom" }) 0
        { task_id := "t", user_id := "u", original_request := "r",
          steps := [{ step_number := 1, description := "d", agent := AgentType.executor,
                      script_path := some "s" }] }).2.steps_completed = 0 ∧
    (execute_plan (fun _ _ => { job_id := "", status := "failed", error := some "boom" }) 0
        { task_id := "t", user_id := "u", original_request := "r",
          steps := [{ step_number := 1, description := "d", agent := AgentType.executor,
                      script_path := some "s" }] }).2.error
      = some ("Step " ++ toString 1 ++ " failed: " ++ "boom") := by
  have h := claim_C3_step_failure_fail_fast
    (fun _ _ => { job_id := "", status := "failed", error := some "boom" }) 0
    { task_id := "t", user_id := "u", original_request := "r",
      steps := [{ step_number := 1, description := "d", agent := AgentType.executor,
                  script_path := some "s" }] }
    [] [] { step_number := 1, description := "d", agent := AgentType.executor,
            script_path := some "s" } "boom" rfl rfl rfl rfl
  exact ⟨h.1, h.2.1, h.2.2.1⟩

/-- C5: if the walk reaches step `k` with all earlier steps succeeded and
some entry of `stepk.depends_on` has no accumulated result, execution
aborts with `steps_completed = k - 1` and error
`"Step <N> dependencies not met"` naming step `k`; step `k` itself and
every later step are left completely untouched (so the step is never
marked executing or failed and a pending step stays pending). -/
theorem claim_C5_dependency_abort (env : DispatchEnv) (t : Nat)
    (plan : ExecutionPlan) (pre post : List ExecutionStep) (stepk : ExecutionStep)
    (hsteps : plan.steps = pre ++ stepk :: post)
    (hpre : (execute_steps env pre {}).2.error = none)
    (hdep : ∃ d ∈ stepk.depends_on,
      pyGet (execute_steps env pre {}).2.step_results d = none) :
    (execute_plan env t plan).2.status = TaskStatus.failed ∧
    (execute_plan env t plan).2.steps_completed = pre.length ∧
    (execute_plan env t plan).2.error
      = some ("Step " ++ toString stepk.step_number ++ " dependencies not met") ∧
    (execute_plan env t plan).1.steps
      = (execute_steps env pre {}).1 ++ (stepk :: post) := by
  obtain ⟨d, hd, hnone⟩ := hdep
  have hcheck : check_dependencies stepk (execute_steps env pre {}).2.step_results
      = false := by
    apply List.all_eq_false.mpr
    exact ⟨d, hd, by simp [pyContains, hnone]⟩
  have hall : execute_steps env plan.steps {}
      = ((execute_steps env pre {}).1 ++ (stepk :: post),
         { (execute_steps env pre {}).2 with
            error := some ("Step " ++ toString stepk.step_number
              ++ " dependencies not met") }) := by
    rw [hsteps, execute_steps_append env pre (stepk :: post) {} rfl, if_pos hpre]
    simp [execute_steps, hcheck]
  have hcompleted : (execute_steps env pre {}).2.completed_steps = pre.length := by
    rcases execute_steps_spec env pre {} rfl with ⟨_, hc⟩ | ⟨e', he', _, _, _⟩
    · have hc' : (execute_steps env pre {}).2.completed_steps = 0 + pre.length := hc
      omega
    · rw [hpre] at he'
      exact absurd he' (by simp)
  have hmsg : ("Step " ++ toString stepk.step_number ++ " dependencies not met") ≠ "" :=
    string_append_ne_empty_of_ne _ _
      (string_append_ne_empty_of_ne _ _ (by decide))
  refine ⟨?_, ?_, ?_, ?_⟩
  · simp [execute_plan, hall, pyTruthyOptStr, hmsg]
  · simpa [execute_plan, hall] using hcompleted
  · simp [execute_plan, hall]
  · simp [execute_plan, hall]

/-- Witness for C5: a one-step plan whose only step depends on a step
number for which no result exists. -/
theorem claim_C5_dependency_abort_witness :
    (execute_plan (fun _ _ => { job_id := "", status := "failed" }) 0
        { task_id := "t", user_id := "u", original_request := "r",
          steps := [{ step_number := 2, description := "d", agent := AgentType.executor,
                      depends_on := [1] }] }).2.status = TaskStatus.failed ∧
    (execute_plan (fun _ _ => { job_id := "", status := "failed" }) 0
        { task_id := "t", user_id := "u", original_request := "r",
          steps := [{ step_number := 2, description := "d", agent := AgentType.executor,
                      depends_on := [1] }] }).2.steps_completed = 0 ∧
    (execute_plan (fun _ _ => { job_id := "", status := "failed" }) 0
        { task_id := "t", user_id := "u", original_request := "r",
          steps := [{ step_number := 2, description := "d", agent := AgentType.executor,
                      depends_on := [1] }] }).2.error
      = some ("Step " ++ toString 2 ++ " dependencies not met") := by
  have h := claim_C5_dependency_abort
    (fun _ _ => { job_id := "", status := "failed" }) 0
    { task_id := "t", user_id := "u", original_request := "r",
      steps := [{ step_number := 2, description := "d", agent := AgentType.executor,
                  depends_on := [1] }] }
    [] [] { step_number := 2, description := "d", agent := AgentType.executor,
            depends_on := [1] } rfl rfl ⟨1, by simp, rfl⟩
  exact ⟨h.1, h.2.1, h.2.2.1⟩

/-- C1 counterexample: the injection does overwrite caller-supplied keys of
the form `step_<id>_result`.  In a plan whose second step depends on step 1
and whose caller-supplied `input_params` already bind `"step_1_result"` to
`"caller"`, the input passed to dispatch (visible as the passthrough step's
result) binds `"step_1_result"` to step 1's result — an object — and not to
the caller-supplied string, contradicting the claim that any key already
present keeps its caller-supplied value. -/
theorem claim_C1_counterexample :
    (execute_plan (fun _ _ => { job_id := "", status := "failed" }) 0
        { task_id := "t", user_id := "u", original_request := "r",
          steps := [
            { step_number := 1, description := "a", agent := AgentType.executor,
              input_params := [("x", Value.num 1)] },
            { step_number := 2, description := "b", agent := AgentType.executor,
              input_params := [("step_1_result", Value.str "caller")],
              depends_on := [1] }] }).2.result
      = Value.obj [("step_1_result", Value.obj [("x", Value.num 1)])] ∧
    Value.obj [("x", Value.num 1)] ≠ Value.str "caller" :=
  ⟨rfl, fun h => Value.noConfusion h⟩

/-- C1 amended: the input passed to dispatch is a copy of
`step.input_params` in which, for each id in `step.depends_on` whose result
exists, the key `step_<id>_result` is bound to that dependency's result —
overwriting a caller-supplied binding of that same key if one exists.
Every key that is not `step_<id>_result` for some satisfied dependency id
keeps its caller-supplied value, and no key is ever removed. -/
theorem claim_C1_amended_injection (step : ExecutionStep)
    (prev : List (Nat × Value)) :
    (∀ k : String,
      (∀ dep ∈ step.depends_on, pyContains prev dep = true → stepResultKey dep ≠ k) →
      pyGet (injectParams step prev) k = pyGet step.input_params k) ∧
    (∀ dep ∈ step.depends_on, ∀ v : Value, pyGet prev dep = some v →
      pyGet (injectParams step prev) (stepResultKey dep) = some v) := by
  constructor
  · intro k hk
    exact injectFold_get_of_no_key prev step.depends_on step.input_params k hk
  · intro dep hdep v hv
    exact injectFold_get_dep prev step.depends_on step.input_params dep v hdep hv

/-- Witness for C1 amended: a step with one satisfied dependency; the
unrelated caller key `"x"` keeps its value and the dependency key receives
the dependency's result. -/
theorem claim_C1_amended_injection_witness :
    pyGet (injectParams
        { step_number := 2, description := "b", agent := AgentType.executor,
          input_params := [("x", Value.num 5)], depends_on := [1] }
        [(1, Value.str "depval")]) "x" = some (Value.num 5) ∧
    pyGet (injectParams
        { step_number := 2, description := "b", agent := AgentType.executor,
          input_params := [("x", Value.num 5)], depends_on := [1] }
        [(1, Value.str "depval")]) (stepResultKey 1) = some (Value.str "depval") := by
  constructor
  · rw [(claim_C1_amended_injection
        { step_number := 2, description := "b", agent := AgentType.executor,
          input_params := [("x", Value.num 5)], depends_on := [1] }
        [(1, Value.str "depval")]).1 "x"
      (by intro dep hdep _; simp at hdep; subst hdep; decide)]
    rfl
  · exact (claim_C1_amended_injection
      { step_number := 2, description := "b", agent := AgentType.executor,
        input_params := [("x", Value.num 5)], depends_on := [1] }
      [(1, Value.str "depval")]).2 1 (by simp) (Value.str "depval") rfl

end Agno
